import Mathlib

/-!
Verification of the pastel color engine (`src/lib.rs`) and the color-source
iterator (`src/cli/commands/io.rs`).

The Rust `Scalar` type (`f64`) is embedded as `ℚ`: every computation the
claims exercise stays inside the rationals, where the source's arithmetic
(`+`, `-`, `*`, `/`, `abs`, `%`, `round`) is reproduced exactly.
Rust `u8` values are embedded as `ℕ` values entering through the
saturating `as u8` cast (hence always `≤ 255`).
Standard input is embedded as a list of read events (a successful line or
a failing read), consumed from the head; an empty list is end of input
(a read that yields zero bytes).
-/

set_option maxRecDepth 40000
set_option maxHeartbeats 4000000

/-- The Rust `Scalar` type alias (`f64`), embedded as `ℚ`. -/
abbrev Scalar := ℚ

/-- Modelled from the spec: the helper `mod_positive` from the repository's
`helper.rs`, which is not part of this excerpt — a modulo operation that
always returns a non-negative result in `[0, y)`, so that negative inputs
wrap around (the tests pin `mod_positive(2.9, 2.4) = 0.5` and
`mod_positive(-0.3, 2.0) = 1.7`). -/
def mod_positive (x y : Scalar) : Scalar := x - y * ⌊x / y⌋

/-- Modelled from the spec: the helper `clamp` from the repository's
`helper.rs`, which is not part of this excerpt — clamps `x` into the
interval `[lower, upper]`. -/
def clamp (lower upper x : Scalar) : Scalar := max lower (min upper x)

/-- Truncation toward zero, as Rust's `%` on `f64` truncates its quotient. -/
def ratTrunc (q : Scalar) : ℤ := if 0 ≤ q then ⌊q⌋ else ⌈q⌉

/-- Rust's `%` operator on `f64`: `x - y * trunc (x / y)`. -/
def fmod (x y : Scalar) : Scalar := x - y * ratTrunc (x / y)

/-- Rust's `f64::round`: round half away from zero. -/
def roundScalar (q : Scalar) : ℤ := if 0 ≤ q then ⌊q + 1 / 2⌋ else ⌈q - 1 / 2⌉

/-- Rust's saturating `as u8` cast applied to an integer (the rounded
float): values below `0` become `0`, values above `255` become `255`. -/
def intToU8 (z : ℤ) : ℕ := (max 0 (min 255 z)).toNat

/-- `Hue` from `lib.rs`: wraps a single unclipped angle in degrees. -/
structure Hue where
  unclipped : Scalar
deriving DecidableEq

/-- `Hue::from` from `lib.rs` (`from` is a Lean keyword, hence the name). -/
def Hue.fromScalar (unclipped : Scalar) : Hue := ⟨unclipped⟩

/-- `Hue::value` from `lib.rs`: return a hue value in `[0, 360]`. -/
def Hue.value (self : Hue) : Scalar :=
  if self.unclipped = 360 then self.unclipped
  else mod_positive self.unclipped 360

/-- `Color` from `lib.rs`. -/
structure Color where
  hue : Hue
  saturation : Scalar
  lightness : Scalar
  alpha : Scalar
deriving DecidableEq

/-- `RGBA<T>` from `lib.rs`. -/
structure RGBA (T : Type) where
  r : T
  g : T
  b : T
  alpha : Scalar
deriving DecidableEq

/-- `HSLA` from `lib.rs`. -/
structure HSLA where
  h : Scalar
  s : Scalar
  l : Scalar
  alpha : Scalar
deriving DecidableEq

/-- `Color::from_hsla` from `lib.rs`. -/
def Color.from_hsla (hue saturation lightness alpha : Scalar) : Color :=
  { hue := Hue.fromScalar hue, saturation, lightness, alpha }

/-- `Color::from_hsl` from `lib.rs`. -/
def Color.from_hsl (hue saturation lightness : Scalar) : Color :=
  Color.from_hsla hue saturation lightness 1

/-- `Color::from_rgba` from `lib.rs`: RGB-to-HSL conversion; the `u8`
arguments are embedded as `ℕ` (the `u8` subtraction `max - min` is `ℕ`
subtraction, which agrees with `u8` subtraction when no underflow
occurs). -/
def Color.from_rgba (r g b : ℕ) (alpha : Scalar) : Color :=
  let max_chroma := Nat.max (Nat.max r g) b
  let min_chroma := Nat.min (Nat.min r g) b
  let chroma := max_chroma - min_chroma
  let chroma_s : Scalar := (chroma : Scalar) / 255
  let r_s : Scalar := (r : Scalar) / 255
  let g_s : Scalar := (g : Scalar) / 255
  let b_s : Scalar := (b : Scalar) / 255
  let hue : Scalar := 60 *
    (if chroma = 0 then 0
     else
       if r = max_chroma then mod_positive ((g_s - b_s) / chroma_s) 6
       else if g = max_chroma then (b_s - r_s) / chroma_s + 2
       else (r_s - g_s) / chroma_s + 4)
  let lightness := ((max_chroma : Scalar) + (min_chroma : Scalar)) / (255 * 2)
  let saturation :=
    if chroma = 0 then 0 else chroma_s / (1 - |2 * lightness - 1|)
  Color.from_hsla hue saturation lightness alpha

/-- `Color::from_rgb` from `lib.rs`. -/
def Color.from_rgb (r g b : ℕ) : Color := Color.from_rgba r g b 1

/-- `Color::from_rgba_scaled` from `lib.rs`. -/
def Color.from_rgba_scaled (r g b alpha : Scalar) : Color :=
  let r := intToU8 (roundScalar (clamp 0 255 (255 * r)))
  let g := intToU8 (roundScalar (clamp 0 255 (255 * g)))
  let b := intToU8 (roundScalar (clamp 0 255 (255 * b)))
  Color.from_rgba r g b alpha

/-- `Color::from_rgb_scaled` from `lib.rs`. -/
def Color.from_rgb_scaled (r g b : Scalar) : Color :=
  Color.from_rgba_scaled r g b 1

/-- `Color::to_hsla` from `lib.rs`. -/
def Color.to_hsla (self : Color) : HSLA :=
  { h := self.hue.value, s := self.saturation, l := self.lightness,
    alpha := self.alpha }

/-- `Color::to_rgba_scaled` from `lib.rs`: HSL-to-RGB conversion. -/
def Color.to_rgba_scaled (self : Color) : RGBA Scalar :=
  let h_s := self.hue.value / 60
  let chr := (1 - |2 * self.lightness - 1|) * self.saturation
  let m := self.lightness - chr / 2
  let x := chr * (1 - |fmod h_s 2 - 1|)
  let col : Scalar × Scalar × Scalar :=
    if h_s < 1 then (chr, x, 0)
    else if 1 ≤ h_s ∧ h_s < 2 then (x, chr, 0)
    else if 2 ≤ h_s ∧ h_s < 3 then (0, chr, x)
    else if 3 ≤ h_s ∧ h_s < 4 then (0, x, chr)
    else if 4 ≤ h_s ∧ h_s < 5 then (x, 0, chr)
    else (chr, 0, x)
  { r := col.1 + m, g := col.2.1 + m, b := col.2.2 + m, alpha := self.alpha }

/-- `Color::to_rgba` from `lib.rs`. -/
def Color.to_rgba (self : Color) : RGBA ℕ :=
  let c := self.to_rgba_scaled
  { r := intToU8 (roundScalar (255 * c.r))
    g := intToU8 (roundScalar (255 * c.g))
    b := intToU8 (roundScalar (255 * c.b))
    alpha := self.alpha }

/-- `Color::black` from `lib.rs`. -/
def Color.black : Color := Color.from_hsl 0 0 0

/-- `Color::white` from `lib.rs`. -/
def Color.white : Color := Color.from_hsl 0 0 1

/-- `Color::gray` from `lib.rs`. -/
def Color.gray (lightness : Scalar) : Color := Color.from_hsl 0 0 lightness

/-- The `impl PartialEq for Color` from `lib.rs`: compares the `to_rgba()`
projections of the two operands (`dbg!` is an identity wrapper; the
derived `PartialEq` of `RGBA<u8>` compares `r`, `g`, `b` and `alpha`
field-wise). -/
def Color.eq (self other : Color) : Prop := self.to_rgba = other.to_rgba

instance (a b : Color) : Decidable (Color.eq a b) :=
  inferInstanceAs (Decidable (_ = _))

/-- Claim C1's roundtrip at one hue sample: `c = from_hsl(h, 0.5, 0.8)`
satisfies `from_rgb(c.to_rgba().r, c.to_rgba().g, c.to_rgba().b) == c`. -/
def roundtripAt (h : ℕ) : Prop :=
  Color.eq
    (Color.from_rgb
      (Color.to_rgba (Color.from_hsl (h : Scalar) (1 / 2) (4 / 5))).r
      (Color.to_rgba (Color.from_hsl (h : Scalar) (1 / 2) (4 / 5))).g
      (Color.to_rgba (Color.from_hsl (h : Scalar) (1 / 2) (4 / 5))).b)
    (Color.from_hsl (h : Scalar) (1 / 2) (4 / 5))

instance (h : ℕ) : Decidable (roundtripAt h) :=
  inferInstanceAs (Decidable (Color.eq _ _))

/-- The RGB-to-HSL algorithm exactly as claim C4 states it (spec-side
definition, for comparison with `Color.from_rgba`): lightness is
`(max + min) / (2 * 255)`; if `max = min` then hue and saturation are `0`;
otherwise saturation is `chroma_scaled / (1 - |2 * lightness - 1|)` and hue
is `60` times a sector value chosen by the maximal channel, the r-is-max
case using the non-negative modulo by `6`. -/
def specFromRgba (r g b : ℕ) (alpha : Scalar) : Color :=
  let maxc := Nat.max (Nat.max r g) b
  let minc := Nat.min (Nat.min r g) b
  let lightness : Scalar := ((maxc : Scalar) + (minc : Scalar)) / (2 * 255)
  if maxc = minc then Color.from_hsla 0 0 lightness alpha
  else
    let chroma_s : Scalar := ((maxc - minc : ℕ) : Scalar) / 255
    let saturation := chroma_s / (1 - |2 * lightness - 1|)
    let r_s : Scalar := (r : Scalar) / 255
    let g_s : Scalar := (g : Scalar) / 255
    let b_s : Scalar := (b : Scalar) / 255
    let hue : Scalar := 60 *
      (if r = maxc then mod_positive ((g_s - b_s) / chroma_s) 6
       else if g = maxc then (b_s - r_s) / chroma_s + 2
       else (r_s - g_s) / chroma_s + 4)
    Color.from_hsla hue saturation lightness alpha

/-- The HSL-to-RGB transform exactly as claim C6 states it (spec-side
definition, for comparison with `Color.to_rgba_scaled`): the six 60-degree
sectors are given by two-sided interval conditions `[0,1) … [5,6]`; the
claim asserts `h_s ∈ [0,6]`, so the fall-through value is never reached. -/
def specToRgbaScaled (self : Color) : RGBA Scalar :=
  let h_s := self.hue.value / 60
  let chroma := (1 - |2 * self.lightness - 1|) * self.saturation
  let m := self.lightness - chroma / 2
  let x := chroma * (1 - |fmod h_s 2 - 1|)
  let col : Scalar × Scalar × Scalar :=
    if 0 ≤ h_s ∧ h_s < 1 then (chroma, x, 0)
    else if 1 ≤ h_s ∧ h_s < 2 then (x, chroma, 0)
    else if 2 ≤ h_s ∧ h_s < 3 then (0, chroma, x)
    else if 3 ≤ h_s ∧ h_s < 4 then (0, x, chroma)
    else if 4 ≤ h_s ∧ h_s < 5 then (x, 0, chroma)
    else if 5 ≤ h_s ∧ h_s ≤ 6 then (chroma, 0, x)
    else (0, 0, 0)
  { r := col.1 + m, g := col.2.1 + m, b := col.2.2 + m, alpha := self.alpha }

/-- Modelled from the spec: the error kinds of the CLI error enum
(`PastelError`), which is not part of this excerpt; only the variants the
iterator in `io.rs` mentions are needed. -/
inductive PastelError where
  | ColorArgRequired
  | CouldNotParseNumber (s : String)
  | ColorParseError (s : String)
  | ColorInvalidUTF8
  | CouldNotReadFromStdin
deriving DecidableEq

/-- Modelled from Rust's standard `str::trim` (external library function):
strip leading and trailing whitespace. -/
def rustTrim (s : String) : String :=
  ⟨((s.data.dropWhile Char.isWhitespace).reverse.dropWhile
      Char.isWhitespace).reverse⟩

/-- An event observable on standard input: a successful read of one line,
or a failing read (`read_line` returning `Err`). -/
inductive ReadEvent where
  | line (s : String)
  | failure
deriving DecidableEq

/-- Standard input, embedded as the list of its pending read events;
the empty list is end of input. -/
abbrev Stdin := List ReadEvent

/-- The outcome of one `read_line` call: the line read into the buffer
(empty when zero bytes were read, i.e. at end of input), or an `Err`. -/
inductive ReadLineResult where
  | ok (s : String)
  | ioError
deriving DecidableEq

/-- Modelled from the spec: `BufRead::read_line` (external library
function) — reads the next event; at end of input it reads zero bytes and
leaves the buffer empty. -/
def readLine : Stdin → ReadLineResult × Stdin
  | [] => (.ok "", [])
  | .line s :: rest => (.ok s, rest)
  | .failure :: rest => (.ioError, rest)

/-- `ColorArgIterator::color_from_stdin` from `io.rs`: read one line from
standard input; a failing read is `ColorInvalidUTF8`; a zero-byte read is
`CouldNotReadFromStdin`; otherwise the trimmed line is handed to the
external parser collaborator `parse`. -/
def color_from_stdin (parse : String → Option Color) (stdin : Stdin) :
    Except PastelError Color × Stdin :=
  match readLine stdin with
  | (.ioError, rest) => (.error .ColorInvalidUTF8, rest)
  | (.ok s, rest) =>
    if s.length = 0 then (.error .CouldNotReadFromStdin, rest)
    else
      let line := rustTrim s
      match parse line with
      | some c => (.ok c, rest)
      | none => (.error (.ColorParseError line), rest)

/-- `ColorArgIterator::from_color_arg` from `io.rs`: the literal argument
`"-"` reads one color from standard input; any other argument is handed to
the external parser collaborator. -/
def from_color_arg (parse : String → Option Color) (arg : String)
    (stdin : Stdin) : Except PastelError Color × Stdin :=
  if arg = "-" then color_from_stdin parse stdin
  else
    (match parse arg with
     | some c => .ok c
     | none => .error (.ColorParseError arg), stdin)

/-- `ColorArgIterator` from `io.rs`: a tagged variant over the two color
sources. -/
inductive ColorArgIterator where
  | FromPositionalArguments (args : List String)
  | FromStdin
deriving DecidableEq

/-- `ColorArgIterator::from_args` from `io.rs`: positional arguments when
present; otherwise stdin mode, unless standard input is an interactive
terminal. -/
def ColorArgIterator.from_args (args : Option (List String))
    (stdinIsTty : Bool) : Except PastelError ColorArgIterator :=
  match args with
  | some positionals => .ok (.FromPositionalArguments positionals)
  | none =>
    if stdinIsTty then .error .ColorArgRequired
    else .ok .FromStdin

/-- The `impl Iterator for ColorArgIterator` from `io.rs`: `next` returns
the produced item (`none` means the sequence has ended) together with the
iterator's and standard input's successor states. -/
def ColorArgIterator.next (parse : String → Option Color) :
    ColorArgIterator → Stdin →
    Option (Except PastelError Color) × ColorArgIterator × Stdin
  | .FromPositionalArguments args, stdin =>
    match args with
    | [] => (none, .FromPositionalArguments [], stdin)
    | color_arg :: rest =>
      let r := from_color_arg parse color_arg stdin
      (some r.1, .FromPositionalArguments rest, r.2)
  | .FromStdin, stdin =>
    match color_from_stdin parse stdin with
    | (.ok color, rest) => (some (.ok color), .FromStdin, rest)
    | (.error .CouldNotReadFromStdin, rest) => (none, .FromStdin, rest)
    | (.error e, rest) => (some (.error e), .FromStdin, rest)

/-- The color named `red` (what the external parser returns for "red"). -/
def cRed : Color := Color.from_rgb 255 0 0

/-- The color named `green` (what the external parser returns for
"#00ff00"). -/
def cGreen : Color := Color.from_rgb 0 255 0

/-- The color named `blue` (what the external parser returns for "blue"). -/
def cBlue : Color := Color.from_rgb 0 0 255

/-- A concrete external parser collaborator for the claim C9 scenario. -/
def parse9 : String → Option Color := fun s =>
  if s = "red" then some cRed
  else if s = "#00ff00" then some cGreen
  else if s = "blue" then some cBlue
  else none

/-- An external parser collaborator that recognizes nothing. -/
def parseNone : String → Option Color := fun _ => none

theorem mod_positive_mem (x y : Scalar) (hy : 0 < y) :
    0 ≤ mod_positive x y ∧ mod_positive x y < y := by
  have hy0 : y ≠ 0 := ne_of_gt hy
  have hrw : mod_positive x y = y * Int.fract (x / y) := by
    unfold mod_positive Int.fract
    field_simp
  constructor
  · rw [hrw]
    exact mul_nonneg hy.le (Int.fract_nonneg _)
  · rw [hrw]
    calc y * Int.fract (x / y) < y * 1 :=
          (mul_lt_mul_left hy).mpr (Int.fract_lt_one _)
    _ = y := mul_one y

theorem hue_value_mem (h : Hue) : 0 ≤ h.value ∧ h.value ≤ 360 := by
  unfold Hue.value
  split
  · next h360 => rw [h360]; norm_num
  · have := mod_positive_mem h.unclipped 360 (by norm_num)
    exact ⟨this.1, this.2.le⟩

/-- Claim C2: for every Scalar `x`, `Hue::from(x).value()` lies in
`[0, 360]` and is congruent to `x` modulo `360`, the single exception
being that exactly `360.0` is returned unchanged (every other input
yields a value strictly below `360`); in particular
`Hue::from(373.0).value() = 13.0`, `Hue::from(-60.0).value() = 300.0`,
`Hue::from(360.0).value() = 360.0` and `Hue::from(43.0).value() = 43.0`. -/
theorem hue_normalization :
    (∀ x : Scalar,
      (0 ≤ (Hue.fromScalar x).value ∧ (Hue.fromScalar x).value ≤ 360) ∧
      (∃ k : ℤ, x - (Hue.fromScalar x).value = 360 * k) ∧
      (x ≠ 360 → (Hue.fromScalar x).value < 360)) ∧
    (Hue.fromScalar 360).value = 360 ∧
    (Hue.fromScalar 373).value = 13 ∧
    (Hue.fromScalar (-60)).value = 300 ∧
    (Hue.fromScalar 43).value = 43 := by
  refine ⟨fun x => ⟨hue_value_mem _, ?_, ?_⟩, ?_, ?_, ?_, ?_⟩
  · unfold Hue.value Hue.fromScalar
    split
    · exact ⟨0, by simp_all⟩
    · exact ⟨⌊x / 360⌋, by unfold mod_positive; ring⟩
  · intro hx
    unfold Hue.value Hue.fromScalar
    split
    · simp_all
    · exact (mod_positive_mem x 360 (by norm_num)).2
  · with_unfolding_all decide
  · with_unfolding_all decide
  · with_unfolding_all decide
  · with_unfolding_all decide

theorem hue_normalization_witness :
    (373 : Scalar) ≠ 360 ∧ (Hue.fromScalar 373).value < 360 :=
  ⟨by norm_num, (hue_normalization.1 373).2.2 (by norm_num)⟩

theorem rgba_eq_iff {T : Type} (a b : RGBA T) :
    a = b ↔ a.r = b.r ∧ a.g = b.g ∧ a.b = b.b ∧ a.alpha = b.alpha := by
  cases a
  cases b
  simp

theorem to_rgba_alpha (c : Color) : c.to_rgba.alpha = c.alpha := rfl

theorem from_hsl_lightness_zero_rgba (h s : Scalar) :
    (Color.from_hsl h s 0).to_rgba = ⟨0, 0, 0, 1⟩ := by
  unfold Color.from_hsl Color.from_hsla Color.to_rgba Color.to_rgba_scaled
  norm_num
  norm_num [roundScalar, intToU8]

theorem from_hsl_lightness_one_rgba (h s : Scalar) :
    (Color.from_hsl h s 1).to_rgba = ⟨255, 255, 255, 1⟩ := by
  unfold Color.from_hsl Color.from_hsla Color.to_rgba Color.to_rgba_scaled
  norm_num
  norm_num [roundScalar, intToU8]
  rfl

/-- Claim C3: Color equality holds iff the `to_rgba()` projections agree,
i.e. iff the rounded 8-bit r, g, b channels are equal and the alpha values
are exactly equal (no rounding of alpha); consequently
`from_hsl(120,0.3,0.5) == from_hsl(480,0.3,0.5)`,
`black() == from_hsl(h,s,0)` and `white() == from_hsl(h,s,1)` for any
`h`, `s`, while `from_hsla(h,s,l,0.9) != from_hsla(h,s,l,0.901)`. -/
theorem color_equality_contract :
    (∀ a b : Color, Color.eq a b ↔
      (a.to_rgba.r = b.to_rgba.r ∧ a.to_rgba.g = b.to_rgba.g ∧
       a.to_rgba.b = b.to_rgba.b ∧ a.alpha = b.alpha)) ∧
    Color.eq (Color.from_hsl 120 (3 / 10) (1 / 2))
      (Color.from_hsl 480 (3 / 10) (1 / 2)) ∧
    (∀ h s : Scalar, Color.eq Color.black (Color.from_hsl h s 0)) ∧
    (∀ h s : Scalar, Color.eq Color.white (Color.from_hsl h s 1)) ∧
    (∀ h s l : Scalar,
      ¬ Color.eq (Color.from_hsla h s l (9 / 10))
        (Color.from_hsla h s l (901 / 1000))) := by
  refine ⟨fun a b => ?_, ?_, fun h s => ?_, fun h s => ?_, fun h s l hc => ?_⟩
  · rw [Color.eq, rgba_eq_iff, to_rgba_alpha, to_rgba_alpha]
  · with_unfolding_all decide
  · rw [Color.eq, Color.black, from_hsl_lightness_zero_rgba,
      from_hsl_lightness_zero_rgba]
  · rw [Color.eq, Color.white, from_hsl_lightness_one_rgba,
      from_hsl_lightness_one_rgba]
  · have := congrArg RGBA.alpha hc
    rw [to_rgba_alpha, to_rgba_alpha] at this
    norm_num [Color.from_hsla] at this

theorem color_equality_contract_witness :
    ¬ Color.eq (Color.from_hsla 0 0 0 (9 / 10))
      (Color.from_hsla 0 0 0 (901 / 1000)) :=
  color_equality_contract.2.2.2.2 0 0 0

theorem min_chroma_le_max_chroma (r g b : ℕ) :
    Nat.min (Nat.min r g) b ≤ Nat.max (Nat.max r g) b :=
  le_trans (Nat.min_le_left _ _)
    (le_trans (Nat.min_le_left _ _)
      (le_trans (Nat.le_max_left _ _) (Nat.le_max_left _ _)))

/-- Claim C4: `from_rgba` computes lightness `(max + min) / (2 * 255)`,
the achromatic case sets hue and saturation to `0`, and otherwise
saturation is `chroma_scaled / (1 - |2 * lightness - 1|)` and hue is `60`
times the sector value of the maximal channel, with the r-is-max sector
using the non-negative modulo by `6` (whose value is in `[0, 6)` even for
negative differences). -/
theorem from_rgba_algorithm :
    (∀ (r g b : ℕ) (alpha : Scalar),
      Color.from_rgba r g b alpha = specFromRgba r g b alpha) ∧
    (∀ x : Scalar, 0 ≤ mod_positive x 6 ∧ mod_positive x 6 < 6) := by
  refine ⟨fun r g b alpha => ?_, fun x => mod_positive_mem x 6 (by norm_num)⟩
  have hle := min_chroma_le_max_chroma r g b
  unfold Color.from_rgba specFromRgba
  by_cases hc : Nat.max (Nat.max r g) b - Nat.min (Nat.min r g) b = 0
  · have heq : Nat.max (Nat.max r g) b = Nat.min (Nat.min r g) b := by omega
    simp only [hc, heq, if_pos rfl]
    norm_num [Color.from_hsla]
  · have hne : ¬ Nat.max (Nat.max r g) b = Nat.min (Nat.min r g) b := by omega
    simp only [if_neg hc, if_neg hne]
    norm_num [Color.from_hsla]

theorem clamp_mem (x : Scalar) : 0 ≤ clamp 0 255 x ∧ clamp 0 255 x ≤ 255 := by
  unfold clamp
  exact ⟨le_max_left _ _, max_le (by norm_num) (min_le_left _ _)⟩

theorem roundScalar_mem {q : Scalar} (h0 : 0 ≤ q) (h255 : q ≤ 255) :
    0 ≤ roundScalar q ∧ roundScalar q ≤ 255 := by
  unfold roundScalar
  rw [if_pos h0]
  constructor
  · exact Int.floor_nonneg.mpr (by linarith)
  · have h : (⌊q + 1 / 2⌋ : ℤ) ≤ ⌊(255 : ℚ) + 1 / 2⌋ :=
      Int.floor_le_floor (by linarith)
    have h2 : (⌊(255 : ℚ) + 1 / 2⌋ : ℤ) = 255 := by norm_num
    omega

theorem intToU8_of_mem {z : ℤ} (h0 : 0 ≤ z) (h255 : z ≤ 255) :
    intToU8 z = z.toNat := by
  unfold intToU8
  rw [min_eq_right h255, max_eq_right h0]

/-- Claim C5: `from_rgba_scaled` clamps `255 * channel` into `[0, 255]`
before rounding, so the rounded value fits the 8-bit type (no overflow or
wrap), and the result equals `from_rgba` applied to the clamped, rounded
channel values. -/
theorem from_rgba_scaled_clamp_safety :
    ∀ r g b alpha : Scalar,
      (0 ≤ roundScalar (clamp 0 255 (255 * r)) ∧
        roundScalar (clamp 0 255 (255 * r)) ≤ 255) ∧
      (0 ≤ roundScalar (clamp 0 255 (255 * g)) ∧
        roundScalar (clamp 0 255 (255 * g)) ≤ 255) ∧
      (0 ≤ roundScalar (clamp 0 255 (255 * b)) ∧
        roundScalar (clamp 0 255 (255 * b)) ≤ 255) ∧
      Color.from_rgba_scaled r g b alpha =
        Color.from_rgba (roundScalar (clamp 0 255 (255 * r))).toNat
          (roundScalar (clamp 0 255 (255 * g))).toNat
          (roundScalar (clamp 0 255 (255 * b))).toNat alpha := by
  intro r g b alpha
  have hr := roundScalar_mem (clamp_mem (255 * r)).1 (clamp_mem (255 * r)).2
  have hg := roundScalar_mem (clamp_mem (255 * g)).1 (clamp_mem (255 * g)).2
  have hb := roundScalar_mem (clamp_mem (255 * b)).1 (clamp_mem (255 * b)).2
  refine ⟨hr, hg, hb, ?_⟩
  unfold Color.from_rgba_scaled
  rw [intToU8_of_mem hr.1 hr.2, intToU8_of_mem hg.1 hg.2,
    intToU8_of_mem hb.1 hb.2]

/-- Claim C6: `to_rgba_scaled` computes `h_s = hue.value() / 60 ∈ [0, 6]`,
chroma `(1 - |2 l - 1|) s`, `m = l - chroma / 2`,
`x = chroma (1 - |h_s mod 2 - 1|)`, selects the channel triple from the
six 60-degree sectors, and adds `m` to each channel, passing alpha through
(the spec-side transform `specToRgbaScaled` states exactly that). -/
theorem to_rgba_scaled_sectors :
    ∀ c : Color,
      (0 ≤ c.hue.value / 60 ∧ c.hue.value / 60 ≤ 6) ∧
      c.to_rgba_scaled = specToRgbaScaled c := by
  intro c
  have hv := hue_value_mem c.hue
  have h0 : 0 ≤ c.hue.value / 60 := div_nonneg hv.1 (by norm_num)
  have h6 : c.hue.value / 60 ≤ 6 := by
    rw [div_le_iff₀ (by norm_num : (0:ℚ) < 60)]
    linarith [hv.2]
  refine ⟨⟨h0, h6⟩, ?_⟩
  simp only [Color.to_rgba_scaled, specToRgbaScaled]
  rcases lt_or_le (c.hue.value / 60) 1 with h1 | h1
  · rw [if_pos h1,
      if_pos (show 0 ≤ c.hue.value / 60 ∧ c.hue.value / 60 < 1 from ⟨h0, h1⟩)]
  have na : ¬ (c.hue.value / 60 < 1) := not_lt.mpr h1
  have nb : ¬ (0 ≤ c.hue.value / 60 ∧ c.hue.value / 60 < 1) := fun hx => na hx.2
  rw [if_neg na, if_neg nb]
  rcases lt_or_le (c.hue.value / 60) 2 with h2 | h2
  · have hcnd : 1 ≤ c.hue.value / 60 ∧ c.hue.value / 60 < 2 := ⟨h1, h2⟩
    rw [if_pos hcnd, if_pos hcnd]
  have n2 : ¬ (1 ≤ c.hue.value / 60 ∧ c.hue.value / 60 < 2) :=
    fun hx => absurd hx.2 (not_lt.mpr h2)
  rw [if_neg n2, if_neg n2]
  rcases lt_or_le (c.hue.value / 60) 3 with h3 | h3
  · have hcnd : 2 ≤ c.hue.value / 60 ∧ c.hue.value / 60 < 3 := ⟨h2, h3⟩
    rw [if_pos hcnd, if_pos hcnd]
  have n3 : ¬ (2 ≤ c.hue.value / 60 ∧ c.hue.value / 60 < 3) :=
    fun hx => absurd hx.2 (not_lt.mpr h3)
  rw [if_neg n3, if_neg n3]
  rcases lt_or_le (c.hue.value / 60) 4 with h4 | h4
  · have hcnd : 3 ≤ c.hue.value / 60 ∧ c.hue.value / 60 < 4 := ⟨h3, h4⟩
    rw [if_pos hcnd, if_pos hcnd]
  have n4 : ¬ (3 ≤ c.hue.value / 60 ∧ c.hue.value / 60 < 4) :=
    fun hx => absurd hx.2 (not_lt.mpr h4)
  rw [if_neg n4, if_neg n4]
  rcases lt_or_le (c.hue.value / 60) 5 with h5 | h5
  · have hcnd : 4 ≤ c.hue.value / 60 ∧ c.hue.value / 60 < 5 := ⟨h4, h5⟩
    rw [if_pos hcnd, if_pos hcnd]
  have n5 : ¬ (4 ≤ c.hue.value / 60 ∧ c.hue.value / 60 < 5) :=
    fun hx => absurd hx.2 (not_lt.mpr h5)
  rw [if_neg n5, if_neg n5,
    if_pos (show 5 ≤ c.hue.value / 60 ∧ c.hue.value / 60 ≤ 6 from ⟨h5, h6⟩)]

/-- The let-binding `max_chroma` inside `Color::from_rgba` in `lib.rs`. -/
def maxChroma (r g b : ℕ) : ℕ := Nat.max (Nat.max r g) b

/-- The let-binding `min_chroma` inside `Color::from_rgba` in `lib.rs`. -/
def minChroma (r g b : ℕ) : ℕ := Nat.min (Nat.min r g) b

/-- The let-binding `lightness` inside `Color::from_rgba` in `lib.rs`. -/
def lightnessOf (r g b : ℕ) : Scalar :=
  ((maxChroma r g b : Scalar) + (minChroma r g b : Scalar)) / (255 * 2)

/-- Claim C10: inside `from_rgba`, the `u8` subtraction `max - min` never
underflows (the minimum never exceeds the maximum), these quantities are
the ones `from_rgba` stores (its lightness field equals
`(max + min) / (2 * 255)`), and on the paths dividing by `chroma_s` or by
`1 - |2 * lightness - 1|` (i.e. when chroma is nonzero) both divisors are
nonzero, lightness being strictly between 0 and 1. -/
theorem from_rgba_internal_safety :
    ∀ r g b : Fin 256,
      minChroma r g b ≤ maxChroma r g b ∧
      (∀ alpha : Scalar,
        (Color.from_rgba r g b alpha).lightness = lightnessOf r g b) ∧
      (maxChroma r g b - minChroma r g b ≠ 0 →
        ((maxChroma r g b - minChroma r g b : ℕ) : Scalar) / 255 ≠ 0 ∧
        0 < lightnessOf r g b ∧ lightnessOf r g b < 1 ∧
        1 - |2 * lightnessOf r g b - 1| ≠ 0) := by
  intro r g b
  refine ⟨min_chroma_le_max_chroma r g b, fun alpha => rfl, fun hc => ?_⟩
  have hle : minChroma r g b ≤ maxChroma r g b := min_chroma_le_max_chroma r g b
  have hmax255 : maxChroma r g b ≤ 255 := by
    have hr := r.isLt
    have hg := g.isLt
    have hb := b.isLt
    unfold maxChroma
    exact Nat.max_le.mpr ⟨Nat.max_le.mpr ⟨by omega, by omega⟩, by omega⟩
  have hlt : minChroma r g b < maxChroma r g b := by omega
  have hsum1 : 1 ≤ maxChroma r g b + minChroma r g b := by omega
  have hsum509 : maxChroma r g b + minChroma r g b ≤ 509 := by omega
  have hl0 : 0 < lightnessOf r g b := by
    unfold lightnessOf
    have h1 : (0 : ℚ) < (maxChroma r g b : ℚ) + (minChroma r g b : ℚ) := by
      have h2 : (1 : ℚ) ≤ ((maxChroma r g b + minChroma r g b : ℕ) : ℚ) := by
        exact_mod_cast hsum1
      push_cast at h2
      linarith
    exact div_pos h1 (by norm_num)
  have hl1 : lightnessOf r g b < 1 := by
    unfold lightnessOf
    rw [div_lt_one (by norm_num : (0 : ℚ) < 255 * 2)]
    have h2 : ((maxChroma r g b + minChroma r g b : ℕ) : ℚ) ≤ 509 := by
      exact_mod_cast hsum509
    push_cast at h2
    linarith
  have habs : |2 * lightnessOf r g b - 1| < 1 :=
    abs_lt.mpr ⟨by linarith, by linarith⟩
  refine ⟨?_, hl0, hl1, ?_⟩
  · exact div_ne_zero (Nat.cast_ne_zero.mpr hc) (by norm_num)
  · have h3 : 0 < 1 - |2 * lightnessOf r g b - 1| := by linarith
    exact ne_of_gt h3

theorem from_rgba_internal_safety_witness :
    ((maxChroma ((255 : Fin 256) : ℕ) ((0 : Fin 256) : ℕ) ((0 : Fin 256) : ℕ) -
        minChroma ((255 : Fin 256) : ℕ) ((0 : Fin 256) : ℕ) ((0 : Fin 256) : ℕ) : ℕ) : Scalar) / 255 ≠ 0 ∧
    0 < lightnessOf ((255 : Fin 256) : ℕ) ((0 : Fin 256) : ℕ) ((0 : Fin 256) : ℕ) ∧
    lightnessOf ((255 : Fin 256) : ℕ) ((0 : Fin 256) : ℕ) ((0 : Fin 256) : ℕ) < 1 ∧
    1 - |2 * lightnessOf ((255 : Fin 256) : ℕ) ((0 : Fin 256) : ℕ) ((0 : Fin 256) : ℕ) - 1| ≠ 0 :=
  (from_rgba_internal_safety 255 0 0).2.2 (by decide)

/-- Claim C7: in stdin mode, a read yielding zero bytes makes `next()`
return end-of-sequence (so an empty stdin yields zero items), and a
non-empty line that fails to parse makes `next()` yield a parse error
carrying the trimmed line text while leaving the iterator in stdin mode
over the remaining input, so the subsequent call attempts the following
line. -/
theorem stdin_mode_per_line :
    (∀ (parse : String → Option Color) (st : Stdin) (s : String) (rest : Stdin),
      readLine st = (.ok s, rest) → s.length = 0 →
      ColorArgIterator.next parse .FromStdin st = (none, .FromStdin, rest)) ∧
    (∀ parse : String → Option Color,
      ColorArgIterator.next parse .FromStdin [] = (none, .FromStdin, [])) ∧
    (∀ (parse : String → Option Color) (st : Stdin) (s : String) (rest : Stdin),
      readLine st = (.ok s, rest) → s.length ≠ 0 → parse (rustTrim s) = none →
      ColorArgIterator.next parse .FromStdin st =
        (some (.error (.ColorParseError (rustTrim s))), .FromStdin, rest)) := by
  refine ⟨fun parse st s rest hrl hlen => ?_, fun parse => rfl,
    fun parse st s rest hrl hlen hparse => ?_⟩
  · simp only [ColorArgIterator.next, color_from_stdin]
    rw [hrl]
    simp [hlen]
  · simp only [ColorArgIterator.next, color_from_stdin]
    rw [hrl]
    simp [hlen, hparse]

theorem stdin_mode_per_line_witness :
    readLine [ReadEvent.line "abc\n"] = (.ok "abc\n", []) ∧
    "abc\n".length ≠ 0 ∧ parseNone (rustTrim "abc\n") = none ∧
    ColorArgIterator.next parseNone .FromStdin [ReadEvent.line "abc\n"] =
      (some (.error (.ColorParseError (rustTrim "abc\n"))), .FromStdin, []) :=
  ⟨rfl, by decide, rfl,
    stdin_mode_per_line.2.2 parseNone [ReadEvent.line "abc\n"] "abc\n" []
      rfl (by decide) rfl⟩

/-- Claim C8 as stated is false at the concrete stdin whose first read
fails for a non-EOF reason: the error produced there is the
invalid-UTF-8 error, not the could-not-read error, and pure-stdin-mode
iteration surfaces it as an item rather than silently ending. -/
theorem stdin_error_asymmetry_counterexample :
    ColorArgIterator.next parseNone .FromStdin [ReadEvent.failure] =
      (some (.error .ColorInvalidUTF8), .FromStdin, []) ∧
    PastelError.ColorInvalidUTF8 ≠ PastelError.CouldNotReadFromStdin :=
  ⟨rfl, by decide⟩

/-- Claim C8 amended: the could-not-read error arises from a read that
yields zero bytes (end of input), not from a non-EOF read failure; in
pure-stdin-mode iteration it silently ends the sequence, whereas a `"-"`
positional token delegates directly to the stdin read, so the same error
is surfaced to the caller as a hard per-item error. -/
theorem stdin_error_asymmetry :
    (∀ parse : String → Option Color,
      (color_from_stdin parse []).1 = .error .CouldNotReadFromStdin) ∧
    (∀ (parse : String → Option Color) (st : Stdin) (s : String) (rest : Stdin),
      readLine st = (.ok s, rest) → s.length = 0 →
      (color_from_stdin parse st).1 = .error .CouldNotReadFromStdin) ∧
    (∀ (parse : String → Option Color) (st : Stdin),
      (color_from_stdin parse st).1 = .error .CouldNotReadFromStdin →
      (ColorArgIterator.next parse .FromStdin st).1 = none) ∧
    (∀ (parse : String → Option Color) (st : Stdin),
      from_color_arg parse "-" st = color_from_stdin parse st) ∧
    (∀ (parse : String → Option Color) (st : Stdin) (args : List String),
      (color_from_stdin parse st).1 = .error .CouldNotReadFromStdin →
      (ColorArgIterator.next parse
        (.FromPositionalArguments ("-" :: args)) st).1 =
        some (.error .CouldNotReadFromStdin)) := by
  refine ⟨fun parse => rfl, fun parse st s rest hrl hlen => ?_,
    fun parse st h => ?_, fun parse st => rfl, fun parse st args h => ?_⟩
  · simp only [color_from_stdin]
    rw [hrl]
    simp [hlen]
  · simp only [ColorArgIterator.next]
    rcases h2 : color_from_stdin parse st with ⟨res, rest2⟩
    rw [h2] at h
    simp only at h
    subst h
    rfl
  · simp only [ColorArgIterator.next, from_color_arg]
    simp [h]

theorem stdin_error_asymmetry_witness :
    (color_from_stdin parseNone []).1 = .error .CouldNotReadFromStdin ∧
    (ColorArgIterator.next parseNone .FromStdin []).1 = none ∧
    (ColorArgIterator.next parseNone
      (.FromPositionalArguments ["-"]) []).1 =
      some (.error .CouldNotReadFromStdin) :=
  ⟨stdin_error_asymmetry.1 parseNone,
    stdin_error_asymmetry.2.2.1 parseNone [] (stdin_error_asymmetry.1 parseNone),
    stdin_error_asymmetry.2.2.2.2 parseNone [] []
      (stdin_error_asymmetry.1 parseNone)⟩

/-- Claim C9: in positional mode each item parses the next argument,
except that the literal `"-"` reads exactly one line from standard input;
with arguments `["red", "-", "blue"]` and stdin providing `"#00ff00"`,
the iterator yields red, green, blue in order, the sequence ends when the
arguments are exhausted, and stdin is untouched for any argument other
than `"-"`. -/
theorem positional_dash_token :
    ColorArgIterator.next parse9 (.FromPositionalArguments ["red", "-", "blue"])
        [ReadEvent.line "#00ff00\n"] =
      (some (.ok cRed), .FromPositionalArguments ["-", "blue"],
        [ReadEvent.line "#00ff00\n"]) ∧
    ColorArgIterator.next parse9 (.FromPositionalArguments ["-", "blue"])
        [ReadEvent.line "#00ff00\n"] =
      (some (.ok cGreen), .FromPositionalArguments ["blue"], []) ∧
    ColorArgIterator.next parse9 (.FromPositionalArguments ["blue"]) [] =
      (some (.ok cBlue), .FromPositionalArguments [], []) ∧
    (∀ (parse : String → Option Color) (st : Stdin),
      ColorArgIterator.next parse (.FromPositionalArguments []) st =
        (none, .FromPositionalArguments [], st)) ∧
    (∀ (parse : String → Option Color) (arg : String) (args : List String)
        (st : Stdin),
      arg ≠ "-" →
      (ColorArgIterator.next parse
        (.FromPositionalArguments (arg :: args)) st).2.2 = st) := by
  refine ⟨rfl, ?_, rfl, fun parse st => rfl, fun parse arg args st h => ?_⟩
  · rfl
  · simp only [ColorArgIterator.next, from_color_arg]
    rw [if_neg h]

theorem positional_dash_token_witness :
    "red" ≠ "-" ∧
    (ColorArgIterator.next parse9 (.FromPositionalArguments ["red"])
      [ReadEvent.line "x"]).2.2 = [ReadEvent.line "x"] :=
  ⟨by decide, positional_dash_token.2.2.2.2 parse9 "red" []
    [ReadEvent.line "x"] (by decide)⟩

/-- Claim C1: for every integer hue `h` with `0 ≤ h < 360`, the color
`c = from_hsl(h, 0.5, 0.8)` satisfies
`from_rgb(c.to_rgba().r, c.to_rgba().g, c.to_rgba().b) == c` under the
Color equality (equality of `to_rgba()` projections). -/
theorem roundtrip_integer_hues : ∀ h : Fin 360, roundtripAt h := by
  with_unfolding_all decide
